import Mathlib

/-!
Shallow embedding of `aif360/algorithms/inprocessing/gerryfair/reg_oracle_class.py`.

Datasets are lists of rows, each row a list of rationals (the source uses
pandas data frames of machine floats; the spec describes them as sequences of
real numbers and we embed the numeric values as rationals so that every
definition is executable and every comparison decidable).  Labels are the
Python ints produced by `int(bool)`, embedded as integers 0 and 1.

Each Python `for i in range(n): ... y.append(y_i)` loop is embedded as a
`List.foldl` over `List.range n` that appends one label per iteration, so the
Lean definitions mirror the source statement by statement.
-/

namespace GerryFair

/-- Embedding of `np.dot(beta, x_i)` on two equal-length numeric sequences:
the sum of the pointwise products. -/
def dot (beta x : List ℚ) : ℚ :=
  (List.zipWith (fun a b => a * b) beta x).sum

/-- Modelled from the spec: `pdb.set_trace()` (Python standard library, not part
of this repository) suspends execution into an interactive debugger and then
resumes; it returns no value and alters no program state, so its embedding is
the unit value. -/
def pdbSetTrace : Unit := ()

/-- `class RegOracle`: holds two externally supplied regression models `b0`
(baseline) and `b1` (alternative), each producing a scalar predicted cost for
a single feature row. -/
structure RegOracle where
  b0 : List ℚ → ℚ
  b1 : List ℚ → ℚ

/-- Embedding of `RegOracle.predict(self, X)`: per row, label `int(c_1 < c_0)`
where `c_0 = reg0.predict(x_i)` and `c_1 = reg1.predict(x_i)`.  The
unconditional `pdb.set_trace()` of the source is kept as its unit embedding. -/
def RegOracle.predict (self : RegOracle) (X : List (List ℚ)) : List ℤ :=
  let reg0 := self.b0
  let reg1 := self.b1
  let n := X.length
  let _ := pdbSetTrace
  (List.range n).foldl
    (fun y i =>
      let x_i := X.getD i []
      let c_0 := reg0 x_i
      let c_1 := reg1 x_i
      let y_i : ℤ := if c_1 < c_0 then 1 else 0
      y ++ [y_i])
    []

/-- `class RandomLinearThresh`: a random hyperplane classifier; stores the
weight vector sampled at construction time. -/
structure RandomLinearThresh where
  coefficient : List ℚ

/-- Embedding of `RandomLinearThresh.predict(self, X)`: per row, label
`int(np.dot(beta, x_i) < 0)` with `beta = self.coefficient`. -/
def RandomLinearThresh.predict (self : RandomLinearThresh) (X : List (List ℚ)) : List ℤ :=
  let beta := self.coefficient
  let n := X.length
  (List.range n).foldl
    (fun y i =>
      let x_i := X.getD i []
      let c_1 := dot beta x_i
      let y_i : ℤ := if c_1 < 0 then 1 else 0
      y ++ [y_i])
    []

/-- `class LinearThresh`: a hyperplane classifier whose weight vector is
supplied by the caller (the constructor argument named `d` in the source). -/
structure LinearThresh where
  coefficient : List ℚ

/-- Embedding of `LinearThresh.predict(self, X)`: textually the same loop as
`RandomLinearThresh.predict`, per row labelling `int(np.dot(beta, x_i) < 0)`. -/
def LinearThresh.predict (self : LinearThresh) (X : List (List ℚ)) : List ℤ :=
  let beta := self.coefficient
  let n := X.length
  (List.range n).foldl
    (fun y i =>
      let x_i := X.getD i []
      let c_1 := dot beta x_i
      let y_i : ℤ := if c_1 < 0 then 1 else 0
      y ++ [y_i])
    []

/-- Embedding of `LinearThresh.__init__(self, d)`: stores the supplied weight
vector unchanged. -/
def LinearThresh.init (d : List ℚ) : LinearThresh :=
  { coefficient := d }

/-- Modelled from the spec: `np.random.uniform(-1, 1)` (numpy, not part of this
repository) draws each sample uniformly from the open interval (-1, 1); the
sampler supplies the i-th drawn value together with the guarantee that every
value lies strictly between -1 and 1. -/
structure UniformSampler where
  sample : Nat → ℚ
  sample_mem : ∀ i, -1 < sample i ∧ sample i < 1

/-- Embedding of `RandomLinearThresh.__init__(self, d)`: the list comprehension
`[np.random.uniform(-1, 1) for _ in range(d)]`, drawing the d successive
samples of the given sampler at construction time. -/
def RandomLinearThresh.init (d : Nat) (u : UniformSampler) : RandomLinearThresh :=
  { coefficient := (List.range d).map u.sample }

/-- `RegOracle.predict` re-embedded with the `pdb.set_trace()` line removed,
for comparison with the embedding that keeps it. -/
def RegOracle.predictNoBreakpoint (self : RegOracle) (X : List (List ℚ)) : List ℤ :=
  let reg0 := self.b0
  let reg1 := self.b1
  let n := X.length
  (List.range n).foldl
    (fun y i =>
      let x_i := X.getD i []
      let c_0 := reg0 x_i
      let c_1 := reg1 x_i
      let y_i : ℤ := if c_1 < c_0 then 1 else 0
      y ++ [y_i])
    []

/-- Embedding of `RegOracle.predict` when the two regression models are
fallible: each model either returns a predicted cost or raises an error.  The
loop processes rows in order; the first raised error aborts the loop, the
partial label list is discarded, and the error propagates to the caller.  As
in the source, row i calls `reg0` before `reg1`. -/
def RegOracle.predictE (b0 b1 : List ℚ → Except String ℚ) :
    List (List ℚ) → Except String (List ℤ)
  | [] => Except.ok []
  | x_i :: rest =>
    match b0 x_i with
    | Except.error e => Except.error e
    | Except.ok c_0 =>
      match b1 x_i with
      | Except.error e => Except.error e
      | Except.ok c_1 =>
        match RegOracle.predictE b0 b1 rest with
        | Except.error e => Except.error e
        | Except.ok y => Except.ok ((if c_1 < c_0 then (1 : ℤ) else 0) :: y)

/-- The method call `self.predict(X)` of `LinearThresh` with the heap state
made explicit: the call returns the (possibly updated) receiver, the (possibly
updated) dataset, and the label list.  The Python body only reads
`self.coefficient` and the rows of `X` and assigns to neither, so the
translation returns both unchanged alongside the computed labels. -/
def LinearThresh.predictCall (self : LinearThresh) (X : List (List ℚ)) :
    LinearThresh × List (List ℚ) × List ℤ :=
  let beta := self.coefficient
  let n := X.length
  let y := (List.range n).foldl
    (fun y i =>
      let x_i := X.getD i []
      let c_1 := dot beta x_i
      let y_i : ℤ := if c_1 < 0 then 1 else 0
      y ++ [y_i])
    []
  (self, X, y)

/-- The method call `self.predict(X)` of `RandomLinearThresh` with the heap
state made explicit; the body assigns to neither `self` nor `X`. -/
def RandomLinearThresh.predictCall (self : RandomLinearThresh) (X : List (List ℚ)) :
    RandomLinearThresh × List (List ℚ) × List ℤ :=
  let beta := self.coefficient
  let n := X.length
  let y := (List.range n).foldl
    (fun y i =>
      let x_i := X.getD i []
      let c_1 := dot beta x_i
      let y_i : ℤ := if c_1 < 0 then 1 else 0
      y ++ [y_i])
    []
  (self, X, y)

/-- The method call `self.predict(X)` of `RegOracle` with the heap state made
explicit; the body reads `self.b0`, `self.b1` and the rows of `X` and assigns
to neither. -/
def RegOracle.predictCall (self : RegOracle) (X : List (List ℚ)) :
    RegOracle × List (List ℚ) × List ℤ :=
  let reg0 := self.b0
  let reg1 := self.b1
  let n := X.length
  let _ := pdbSetTrace
  let y := (List.range n).foldl
    (fun y i =>
      let x_i := X.getD i []
      let c_0 := reg0 x_i
      let c_1 := reg1 x_i
      let y_i : ℤ := if c_1 < c_0 then 1 else 0
      y ++ [y_i])
    []
  (self, X, y)

/-- A concrete sampler whose every draw is 0, used to evaluate theorems about
`RandomLinearThresh.init` at a concrete input. -/
def zeroSampler : UniformSampler :=
  { sample := fun _ => 0
    sample_mem := fun _ => by norm_num }

end GerryFair

namespace GerryFair

/-- Folding an append-one-element step over a list, starting from `acc`,
produces `acc` followed by the mapped list. -/
theorem foldl_append_singleton {α β : Type} (f : α → β) (l : List α) (acc : List β) :
    l.foldl (fun y i => y ++ [f i]) acc = acc ++ l.map f := by
  induction l generalizing acc with
  | nil => simp
  | cons a t ih => simp [ih]

/-- Mapping a function of the i-th row over `range X.length` is mapping the
function over the rows themselves. -/
theorem map_range_getD {α β : Type} (d : α) (g : α → β) (X : List α) :
    (List.range X.length).map (fun i => g (X.getD i d)) = X.map g := by
  induction X with
  | nil => simp
  | cons x xs ih =>
    simp only [List.length_cons, List.range_succ_eq_map, List.map_cons, List.map_map]
    refine congrArg (g x :: ·) ?_
    rw [← ih]
    refine List.map_congr_left ?_
    intro i _
    simp [Function.comp, List.getD_cons_succ]

/-- `LinearThresh.predict` is the row-wise linear threshold rule. -/
theorem linearThresh_predict_eq_map (c : LinearThresh) (X : List (List ℚ)) :
    c.predict X = X.map (fun x_i => if dot c.coefficient x_i < 0 then (1 : ℤ) else 0) := by
  unfold LinearThresh.predict
  rw [foldl_append_singleton]
  simpa using map_range_getD [] (fun x_i => if dot c.coefficient x_i < 0 then (1 : ℤ) else 0) X

/-- `RandomLinearThresh.predict` is the row-wise linear threshold rule. -/
theorem randomLinearThresh_predict_eq_map (r : RandomLinearThresh) (X : List (List ℚ)) :
    r.predict X = X.map (fun x_i => if dot r.coefficient x_i < 0 then (1 : ℤ) else 0) := by
  unfold RandomLinearThresh.predict
  rw [foldl_append_singleton]
  simpa using map_range_getD [] (fun x_i => if dot r.coefficient x_i < 0 then (1 : ℤ) else 0) X

/-- `RegOracle.predict` is the row-wise cost comparison rule. -/
theorem regOracle_predict_eq_map (o : RegOracle) (X : List (List ℚ)) :
    o.predict X = X.map (fun x_i => if o.b1 x_i < o.b0 x_i then (1 : ℤ) else 0) := by
  unfold RegOracle.predict
  rw [foldl_append_singleton]
  simpa using map_range_getD [] (fun x_i => if o.b1 x_i < o.b0 x_i then (1 : ℤ) else 0) X

/-- Reading position i of a mapped list, when i is in range, applies the
function to position i of the original list. -/
theorem getD_map_of_lt {α β : Type} (f : α → β) (dA : α) (dB : β) (X : List α)
    (i : Nat) (hi : i < X.length) :
    (X.map f).getD i dB = f (X.getD i dA) := by
  have hi2 : i < (X.map f).length := by simpa using hi
  rw [List.getD_eq_getElem _ _ hi2, List.getD_eq_getElem _ _ hi, List.getElem_map]

/-- C1: For every weight vector w, dataset X and in-range row index i, both
`LinearThresh.predict` and `RandomLinearThresh.predict` label row i with 1 iff
the dot product of w and the row is strictly negative, with 0 otherwise; in
particular a zero dot product yields label 0. -/
theorem linear_threshold_label_rule (w : List ℚ) (X : List (List ℚ)) (i : Nat)
    (hi : i < X.length) :
    (((LinearThresh.init w).predict X).getD i 0
        = if dot w (X.getD i []) < 0 then 1 else 0)
    ∧ ((({ coefficient := w } : RandomLinearThresh).predict X).getD i 0
        = if dot w (X.getD i []) < 0 then 1 else 0)
    ∧ ((((LinearThresh.init w).predict X).getD i 0 = 1) ↔ dot w (X.getD i []) < 0)
    ∧ (dot w (X.getD i []) = 0 →
        ((LinearThresh.init w).predict X).getD i 0 = 0
        ∧ ((({ coefficient := w } : RandomLinearThresh).predict X).getD i 0 = 0)) := by
  have h1 : ((LinearThresh.init w).predict X).getD i 0
      = if dot w (X.getD i []) < 0 then (1 : ℤ) else 0 := by
    rw [linearThresh_predict_eq_map]
    exact getD_map_of_lt _ [] 0 X i hi
  have h2 : ((({ coefficient := w } : RandomLinearThresh).predict X).getD i 0)
      = if dot w (X.getD i []) < 0 then (1 : ℤ) else 0 := by
    rw [randomLinearThresh_predict_eq_map]
    exact getD_map_of_lt _ [] 0 X i hi
  refine ⟨h1, h2, ?_, ?_⟩
  · rw [h1]
    split_ifs with h
    · exact iff_of_true rfl h
    · exact iff_of_false (by decide) h
  · intro h0
    constructor
    · rw [h1, h0]
      norm_num
    · rw [h2, h0]
      norm_num

/-- Witness for C1 at w = [1, -1] and rows [[2,1],[1,2],[1,1]]: row 2 has dot
product 0 and receives label 0. -/
theorem linear_threshold_label_rule_witness :
    ((LinearThresh.init [1, -1]).predict [[2, 1], [1, 2], [1, 1]]).getD 2 0 = 0 :=
  ((linear_threshold_label_rule [1, -1] [[2, 1], [1, 2], [1, 1]] 2 (by decide)).2.2.2
    (by norm_num [dot])).1

/-- C2: For every pair of regression models, dataset X and in-range row index
i, `RegOracle.predict` labels row i with 1 iff the alternative model's cost is
strictly below the baseline model's cost, with 0 otherwise; equal costs yield
label 0. -/
theorem regOracle_label_rule (b0 b1 : List ℚ → ℚ) (X : List (List ℚ)) (i : Nat)
    (hi : i < X.length) :
    (((RegOracle.mk b0 b1).predict X).getD i 0
        = if b1 (X.getD i []) < b0 (X.getD i []) then 1 else 0)
    ∧ ((((RegOracle.mk b0 b1).predict X).getD i 0 = 1)
        ↔ b1 (X.getD i []) < b0 (X.getD i []))
    ∧ (b1 (X.getD i []) = b0 (X.getD i []) →
        ((RegOracle.mk b0 b1).predict X).getD i 0 = 0) := by
  have h1 : ((RegOracle.mk b0 b1).predict X).getD i 0
      = if b1 (X.getD i []) < b0 (X.getD i []) then (1 : ℤ) else 0 := by
    rw [regOracle_predict_eq_map]
    exact getD_map_of_lt _ [] 0 X i hi
  refine ⟨h1, ?_, ?_⟩
  · rw [h1]
    split_ifs with h
    · exact iff_of_true rfl h
    · exact iff_of_false (by decide) h
  · intro h0
    rw [h1, h0]
    simp

/-- Witness for C2 with two constant models that tie on every row: the label
on row 0 is 0. -/
theorem regOracle_label_rule_witness :
    ((RegOracle.mk (fun _ => (1 : ℚ)) (fun _ => (1 : ℚ))).predict [[0]]).getD 0 0 = 0 :=
  (regOracle_label_rule (fun _ => 1) (fun _ => 1) [[0]] 0 (by decide)).2.2 rfl

/-- C3: For every dataset of n rows, each of the three predictors returns
exactly n labels, each label is 0 or 1, and the label at position i is
computed from the row at position i (output in input row order). -/
theorem predict_length_order_binary (c : LinearThresh) (r : RandomLinearThresh)
    (o : RegOracle) (X : List (List ℚ)) :
    (c.predict X).length = X.length
    ∧ (r.predict X).length = X.length
    ∧ (o.predict X).length = X.length
    ∧ (∀ y ∈ c.predict X, y = 0 ∨ y = 1)
    ∧ (∀ y ∈ r.predict X, y = 0 ∨ y = 1)
    ∧ (∀ y ∈ o.predict X, y = 0 ∨ y = 1)
    ∧ (∀ i, i < X.length →
        (c.predict X).getD i 0 = (if dot c.coefficient (X.getD i []) < 0 then 1 else 0)
        ∧ (r.predict X).getD i 0 = (if dot r.coefficient (X.getD i []) < 0 then 1 else 0)
        ∧ (o.predict X).getD i 0
            = (if o.b1 (X.getD i []) < o.b0 (X.getD i []) then 1 else 0)) := by
  refine ⟨?_, ?_, ?_, ?_, ?_, ?_, ?_⟩
  · rw [linearThresh_predict_eq_map, List.length_map]
  · rw [randomLinearThresh_predict_eq_map, List.length_map]
  · rw [regOracle_predict_eq_map, List.length_map]
  · intro y hy
    rw [linearThresh_predict_eq_map] at hy
    obtain ⟨x, _, hx⟩ := List.mem_map.mp hy
    by_cases h : dot c.coefficient x < 0
    · right
      simp [← hx, h]
    · left
      simp [← hx, h]
  · intro y hy
    rw [randomLinearThresh_predict_eq_map] at hy
    obtain ⟨x, _, hx⟩ := List.mem_map.mp hy
    by_cases h : dot r.coefficient x < 0
    · right
      simp [← hx, h]
    · left
      simp [← hx, h]
  · intro y hy
    rw [regOracle_predict_eq_map] at hy
    obtain ⟨x, _, hx⟩ := List.mem_map.mp hy
    by_cases h : o.b1 x < o.b0 x
    · right
      simp [← hx, h]
    · left
      simp [← hx, h]
  · intro i hi
    refine ⟨?_, ?_, ?_⟩
    · rw [linearThresh_predict_eq_map]
      exact getD_map_of_lt _ [] 0 X i hi
    · rw [randomLinearThresh_predict_eq_map]
      exact getD_map_of_lt _ [] 0 X i hi
    · rw [regOracle_predict_eq_map]
      exact getD_map_of_lt _ [] 0 X i hi

/-- Witness for C3: a two-row dataset yields two labels from a concrete
LinearThresh. -/
theorem predict_length_order_binary_witness :
    ((LinearThresh.init [1]).predict [[1], [-1]]).length = 2 :=
  (predict_length_order_binary (LinearThresh.init [1])
    { coefficient := [1] } (RegOracle.mk (fun _ => 0) (fun _ => 0)) [[1], [-1]]).1

/-- C4: predict is deterministic in the stored weight vector and the input:
any two LinearThresh (resp. RandomLinearThresh) instances holding the same
coefficient vector produce the same label sequence on the same dataset, so
repeated calls on one instance reproduce the same output and the randomness of
RandomLinearThresh matters only through the coefficient fixed at
construction. -/
theorem predict_deterministic (c1 c2 : LinearThresh) (r1 r2 : RandomLinearThresh)
    (X : List (List ℚ)) (hc : c1.coefficient = c2.coefficient)
    (hr : r1.coefficient = r2.coefficient) :
    c1.predict X = c2.predict X ∧ r1.predict X = r2.predict X := by
  constructor
  · rw [linearThresh_predict_eq_map, linearThresh_predict_eq_map, hc]
  · rw [randomLinearThresh_predict_eq_map, randomLinearThresh_predict_eq_map, hr]

/-- Witness for C4 at a concrete weight vector and dataset. -/
theorem predict_deterministic_witness :
    (LinearThresh.init [1]).predict [[3]] = (LinearThresh.init [1]).predict [[3]]
    ∧ ({ coefficient := [2] } : RandomLinearThresh).predict [[3]]
        = ({ coefficient := [2] } : RandomLinearThresh).predict [[3]] :=
  predict_deterministic (LinearThresh.init [1]) (LinearThresh.init [1])
    { coefficient := [2] } { coefficient := [2] } [[3]] rfl rfl

/-- C5: a LinearThresh constructed with w and a RandomLinearThresh whose
sampled coefficient vector equals w produce identical outputs from predict on
every dataset. -/
theorem randomLinearThresh_linearThresh_agree (w : List ℚ) (d : Nat)
    (u : UniformSampler) (h : (RandomLinearThresh.init d u).coefficient = w)
    (X : List (List ℚ)) :
    (RandomLinearThresh.init d u).predict X = (LinearThresh.init w).predict X := by
  rw [randomLinearThresh_predict_eq_map, linearThresh_predict_eq_map, h]
  rfl

/-- Witness for C5: the all-zero sampler of dimension 1 agrees with
LinearThresh([0]). -/
theorem randomLinearThresh_linearThresh_agree_witness :
    (RandomLinearThresh.init 1 zeroSampler).predict [[5]]
      = (LinearThresh.init [0]).predict [[5]] :=
  randomLinearThresh_linearThresh_agree [0] 1 zeroSampler rfl [[5]]

/-- C6: RandomLinearThresh constructed with dimensionality d stores exactly d
entries, entry i being the i-th sample drawn at construction time, each lying
strictly within the open interval (-1, 1); predict depends on the sampler only
through these d construction-time samples. -/
theorem randomLinearThresh_init_samples (d : Nat) (u : UniformSampler) :
    (RandomLinearThresh.init d u).coefficient.length = d
    ∧ (∀ i, i < d → (RandomLinearThresh.init d u).coefficient.getD i 0 = u.sample i)
    ∧ (∀ q ∈ (RandomLinearThresh.init d u).coefficient, -1 < q ∧ q < 1)
    ∧ (∀ (v : UniformSampler) (X : List (List ℚ)),
        (∀ i, i < d → u.sample i = v.sample i) →
        (RandomLinearThresh.init d u).predict X
          = (RandomLinearThresh.init d v).predict X) := by
  refine ⟨?_, ?_, ?_, ?_⟩
  · simp [RandomLinearThresh.init]
  · intro i hi
    have hi2 : i < (List.range d).length := by simpa using hi
    show ((List.range d).map u.sample).getD i 0 = u.sample i
    rw [getD_map_of_lt u.sample 0 0 (List.range d) i hi2,
      List.getD_eq_getElem _ _ hi2, List.getElem_range]
  · intro q hq
    obtain ⟨i, _, hiq⟩ := List.mem_map.mp hq
    exact hiq ▸ u.sample_mem i
  · intro v X hagree
    have hcoef : (RandomLinearThresh.init d u).coefficient
        = (RandomLinearThresh.init d v).coefficient := by
      show (List.range d).map u.sample = (List.range d).map v.sample
      refine List.map_congr_left ?_
      intro i hi
      exact hagree i (List.mem_range.mp hi)
    rw [randomLinearThresh_predict_eq_map, randomLinearThresh_predict_eq_map, hcoef]

/-- Witness for C6: the all-zero sampler of dimension 2 stores two entries. -/
theorem randomLinearThresh_init_samples_witness :
    (RandomLinearThresh.init 2 zeroSampler).coefficient.length = 2 :=
  (randomLinearThresh_init_samples 2 zeroSampler).1

/-- C7: the unconditional debugger breakpoint in RegOracle.predict has no
effect on the returned label sequence: predict agrees with the same function
with the breakpoint removed, on every oracle and dataset. -/
theorem regOracle_breakpoint_no_effect (o : RegOracle) (X : List (List ℚ)) :
    o.predict X = o.predictNoBreakpoint X := rfl

/-- C8: if every model call on the rows before row i succeeds and on row i the
baseline model raises (or the baseline succeeds and the alternative raises),
then RegOracle's fallible predict propagates that very error: no label list is
returned, for every choice of the rows after i (which are never evaluated). -/
theorem regOracle_predictE_error (b0 b1 : List ℚ → Except String ℚ)
    (pre post : List (List ℚ)) (x_i : List ℚ) (e : String)
    (hpre : ∀ r ∈ pre, (∃ c, b0 r = Except.ok c) ∧ (∃ c, b1 r = Except.ok c))
    (herr : b0 x_i = Except.error e
      ∨ ((∃ c, b0 x_i = Except.ok c) ∧ b1 x_i = Except.error e)) :
    RegOracle.predictE b0 b1 (pre ++ x_i :: post) = Except.error e := by
  induction pre with
  | nil =>
    rcases herr with h0 | ⟨⟨c0, h0⟩, h1⟩
    · simp [RegOracle.predictE, h0]
    · simp [RegOracle.predictE, h0, h1]
  | cons a t ih =>
    obtain ⟨⟨c0, h0⟩, ⟨c1, h1⟩⟩ := hpre a (List.mem_cons_self a t)
    have ht : ∀ r ∈ t, (∃ c, b0 r = Except.ok c) ∧ (∃ c, b1 r = Except.ok c) :=
      fun r hr => hpre r (List.mem_cons_of_mem a hr)
    simp [RegOracle.predictE, h0, h1, ih ht]

/-- Witness for C8: the baseline model errors exactly on rows of length 2; on
the dataset [[1], [5, 5], [7]] the error on the middle row propagates. -/
theorem regOracle_predictE_error_witness :
    RegOracle.predictE (fun r => if r.length = 2 then Except.error "E" else Except.ok 0)
      (fun _ => Except.ok 0) [[1], [5, 5], [7]] = Except.error "E" :=
  regOracle_predictE_error
    (fun r => if r.length = 2 then Except.error "E" else Except.ok 0)
    (fun _ => Except.ok 0) [[1]] [[7]] [5, 5] "E"
    (by
      intro r hr
      simp only [List.mem_singleton] at hr
      subst hr
      exact ⟨⟨0, rfl⟩, ⟨0, rfl⟩⟩)
    (Or.inl rfl)

/-- C9: a call to predict, with the heap made explicit, returns the receiver
and the dataset unchanged alongside the label list: the stored coefficient
vector (resp. the two models) and the input dataset are exactly what they were
before the call, for all three predictor classes. -/
theorem predictCall_frame (c : LinearThresh) (r : RandomLinearThresh)
    (o : RegOracle) (X : List (List ℚ)) :
    c.predictCall X = (c, X, c.predict X)
    ∧ r.predictCall X = (r, X, r.predict X)
    ∧ o.predictCall X = (o, X, o.predict X) :=
  ⟨rfl, rfl, rfl⟩

/-- C10: on an empty dataset both linear-threshold predictors return the empty
label list (the loop body never runs and the fresh empty list is returned). -/
theorem predict_empty (c : LinearThresh) (r : RandomLinearThresh) :
    c.predict [] = [] ∧ r.predict [] = [] :=
  ⟨rfl, rfl⟩

end GerryFair
